import Mathlib

/-!
Verification of the CGF-Podcast streaming-studio core: a shallow embedding of
the PCM-to-WAV audio pipeline of src/services/geminiService.ts and of the
preview controller, sync loop and generation workflow of src/App.tsx, with
theorems settling the specified properties.

Bytes are modelled as `Nat` (each < 256), machine 16/32-bit fields are written
with explicit `% 2 ^ w` arithmetic, the floating-point channel samples are
modelled exactly as rationals (every value the pipeline produces, `k / 32768`
with integral `k`, and every arithmetic step the encoder performs on them is
exact in binary floating point), and fallible code returns `Except`.
-/

/-- Invalid encoder input. In the source, an odd byte length makes the
`Int16Array` constructor throw and a zero frame count makes
`ctx.createBuffer` throw; the spec's error taxonomy names this condition
`MalformedAudio`. -/
inductive AudioError where
  | malformedAudio
deriving DecidableEq, Repr

/-- The signed 16-bit value held by two little-endian bytes, as `Int16Array`
reads consecutive byte pairs of the decoded buffer. -/
def int16FromBytesLE (lo hi : Nat) : Int :=
  let u := lo + 256 * hi
  if u < 32768 then (u : Int) else (u : Int) - 65536

/-- The byte buffer viewed as LE int16 samples (`new Int16Array(data.buffer)`
in `decodeAudioData`). A trailing odd byte never reaches this view: the
constructor throws first. -/
def bytesToInt16LE : List Nat → List Int
  | [] => []
  | [_] => []
  | lo :: hi :: rest => int16FromBytesLE lo hi :: bytesToInt16LE rest

/-- The channel data `decodeAudioData` fills:
`channelData[i] = dataInt16[i] / 32768.0`. Each value `k / 32768` with
`|k| ≤ 32768` is exactly representable, so rationals model it faithfully. -/
def decodeSamples (data : List Nat) : List ℚ :=
  (bytesToInt16LE data).map fun k : Int => (k : ℚ) / 32768

/-- `decodeAudioData` (src/services/geminiService.ts lines 14-26): mono channel
data at 24000 Hz from raw PCM bytes. The `Int16Array` view throws on an odd
byte length, and `ctx.createBuffer(1, frameCount, 24000)` throws when
`frameCount = dataInt16.length` is zero. -/
def decodeAudioData (data : List Nat) : Except AudioError (List ℚ) :=
  if data.length % 2 ≠ 0 then .error .malformedAudio
  else if data.length / 2 = 0 then .error .malformedAudio
  else .ok (decodeSamples data)

/-- Truncation toward zero: the integer conversion `DataView.setInt16` applies
to a non-integral value (ECMAScript ToIntegerOrInfinity). On a rational
`num / den` this is T-division of the numerator by the denominator. -/
def ratTrunc (q : ℚ) : Int := q.num.tdiv q.den

/-- Reduction of the converted integer into the signed 16-bit range, as
`DataView.setInt16` stores its operand modulo 2^16. -/
def toInt16Wrap (v : Int) : Int := (v + 32768) % 65536 - 32768

/-- The clamp `Math.max(-1, Math.min(1, channels[i]))` in `createAudioUrl`. -/
def clamp1 (x : ℚ) : ℚ := max (-1) (min 1 x)

/-- One sample of `createAudioUrl`'s write loop (lines 59-62):
`const s = Math.max(-1, Math.min(1, channels[i]));`
`view.setInt16(offset, s < 0 ? s * 0x8000 : s * 0x7FFF, true)`. -/
def quantizeSample (x : ℚ) : Int :=
  toInt16Wrap (ratTrunc (if clamp1 x < 0 then clamp1 x * 32768 else clamp1 x * 32767))

/-- The two little-endian bytes `setInt16 _ _ true` stores for a 16-bit value. -/
def int16ToBytesLE (v : Int) : List Nat :=
  let u := (v % 65536).toNat
  [u % 256, u / 256]

/-- The four little-endian bytes `setUint32 _ _ true` stores. -/
def u32LE (v : Nat) : List Nat :=
  [v % 256, v / 256 % 256, v / 65536 % 256, v / 16777216 % 256]

/-- The two little-endian bytes `setUint16 _ _ true` stores. -/
def u16LE (v : Nat) : List Nat := [v % 256, v / 256 % 256]

/-- The 44-byte WAV header `createAudioUrl` writes (lines 44-57), with `n` the
channel-data length: RIFF tag, chunk size `36 + n * 2`, WAVE and fmt tags,
subchunk size 16, format 1, channels 1, sample rate, byte rate
`sampleRate * 2`, block align 2, bits per sample 16, data tag, data size
`n * 2`. The tag bytes are the ASCII codes of RIFF, WAVE, fmt-space, data. -/
def wavHeader (sampleRate n : Nat) : List Nat :=
  [82, 73, 70, 70] ++ u32LE (36 + n * 2) ++
  [87, 65, 86, 69] ++ [102, 109, 116, 32] ++ u32LE 16 ++
  u16LE 1 ++ u16LE 1 ++ u32LE sampleRate ++ u32LE (sampleRate * 2) ++
  u16LE 2 ++ u16LE 16 ++ [100, 97, 116, 97] ++ u32LE (n * 2)

/-- `wavHeader` with its field groups flattened into one byte list — the same
44 bytes, in a shape whose positions reduce quickly. -/
def wavHeaderF (sampleRate n : Nat) : List Nat :=
  [82, 73, 70, 70,
   (36 + n * 2) % 256, (36 + n * 2) / 256 % 256,
   (36 + n * 2) / 65536 % 256, (36 + n * 2) / 16777216 % 256,
   87, 65, 86, 69, 102, 109, 116, 32,
   16, 0, 0, 0, 1, 0, 1, 0,
   sampleRate % 256, sampleRate / 256 % 256,
   sampleRate / 65536 % 256, sampleRate / 16777216 % 256,
   sampleRate * 2 % 256, sampleRate * 2 / 256 % 256,
   sampleRate * 2 / 65536 % 256, sampleRate * 2 / 16777216 % 256,
   2, 0, 16, 0, 100, 97, 116, 97,
   n * 2 % 256, n * 2 / 256 % 256, n * 2 / 65536 % 256, n * 2 / 16777216 % 256]

/-- The complete WAV buffer `createAudioUrl` fills: the header followed by the
quantized samples, two bytes each. -/
def wavFromChannels (sampleRate : Nat) (channels : List ℚ) : List Nat :=
  wavHeader sampleRate channels.length ++
  (channels.map fun x => int16ToBytesLE (quantizeSample x)).flatten

/-- `createAudioUrl` (src/services/geminiService.ts lines 28-66) applied to the
already base64-decoded PCM bytes: build the channel data via `decodeAudioData`
(the context is created with `sampleRate: 24000`), then the WAV buffer. -/
def createAudioUrl (data : List Nat) : Except AudioError (List Nat) :=
  (decodeAudioData data).map (wavFromChannels 24000)

/-- Byte `i` of a buffer (0 past the end, which no in-range read performs). -/
def getByte (w : List Nat) (i : Nat) : Nat := w.getD i 0

/-- A little-endian 16-bit field read back from a buffer. -/
def readU16LE (w : List Nat) (off : Nat) : Nat :=
  getByte w off + 256 * getByte w (off + 1)

/-- A little-endian 32-bit field read back from a buffer. -/
def readU32LE (w : List Nat) (off : Nat) : Nat :=
  getByte w off + 256 * getByte w (off + 1) +
    65536 * getByte w (off + 2) + 16777216 * getByte w (off + 3)

/-- The value the decode-then-encode chain actually stores for an original
int16 sample `k`: negative and zero samples survive byte-exact, while every
positive sample loses one unit (`k / 32768` scaled back by `32767` and
truncated). This is the amended round-trip law. -/
def rtSample (k : Int) : Int := if 0 < k then k - 1 else k

/-- The data-chunk bytes the pipeline produces for given input PCM bytes:
each LE sample pair re-encoded after `rtSample`. -/
def roundTripBytes : List Nat → List Nat
  | [] => []
  | [_] => []
  | lo :: hi :: rest =>
      int16ToBytesLE (rtSample (int16FromBytesLE lo hi)) ++ roundTripBytes rest

/-- The source selector of src/types.ts. -/
inductive StreamSource where
  | WEBCAM
  | VIDEO_LIBRARY
  | ANIMATION
deriving DecidableEq, Repr

/-- The observable state of the preview's video element: capture-stream
binding (`srcObject`), file binding (`src`), mute flag and transport state. -/
structure VideoElemState where
  srcObject : Option Nat
  src : String
  muted : Bool
  playing : Bool
deriving DecidableEq, Repr

/-- The promise `videoEl.play()` returns: it starts playback or is rejected
(autoplay policy, device error). -/
def playVideo (rejected : Bool) (v : VideoElemState) : Except String VideoElemState :=
  if rejected then .error "play rejected" else .ok { v with playing := true }

/-- `videoEl.play().catch(e => console.error(..., e))`: the rejection is
absorbed by the catch handler (logged), leaving the element state as the
binding assignments left it. -/
def playVideoCaught (rejected : Bool) (v : VideoElemState) : VideoElemState :=
  match playVideo rejected v with
  | .ok v2 => v2
  | .error _ => v

/-- The binding effect of `StreamPreview` (src/App.tsx lines 50-67): for
`WEBCAM` with a live stream, attach the stream, clear `src`, mute, play;
otherwise detach any stream, set `src` from `currentVideoUrl`, set
`muted = (source !== ANIMATION)`, and play when a URL is present. -/
def bindVideoEffect (source : StreamSource) (stream : Option Nat)
    (currentVideoUrl : Option String) (playRejected : Bool)
    (v : VideoElemState) : VideoElemState :=
  if source = .WEBCAM ∧ stream.isSome then
    playVideoCaught playRejected { v with srcObject := stream, src := "", muted := true }
  else
    let v2 : VideoElemState :=
      { v with srcObject := none, src := currentVideoUrl.getD "",
               muted := decide (source ≠ .ANIMATION) }
    if currentVideoUrl.isSome then playVideoCaught playRejected v2 else v2

/-- The observable state of the secondary (narration) audio element. -/
structure AudioElemState where
  currentTime : ℚ
  paused : Bool
deriving DecidableEq

/-- Sync handler for the video "play" event:
`audioEl.play().catch(e => console.error(...))` — on success playback starts,
a rejection is logged and leaves the element untouched. -/
def handlePlay (playRejected : Bool) (a : AudioElemState) : AudioElemState :=
  if playRejected then a else { a with paused := false }

/-- Sync handler for the video "pause" event: `audioEl.pause()`. -/
def handlePause (a : AudioElemState) : AudioElemState := { a with paused := true }

/-- Sync handler for the video "timeupdate" event (src/App.tsx line 82):
`if (Math.abs(audioEl.currentTime - videoEl.currentTime) > 0.5)`
`  audioEl.currentTime = videoEl.currentTime`. -/
def handleSeek (videoTime : ℚ) (a : AudioElemState) : AudioElemState :=
  if |a.currentTime - videoTime| > 1 / 2 then { a with currentTime := videoTime } else a

/-- The dependencies and environment one run of the sync effect sees: the
selected source, whether the audio element is mounted (it is rendered only for
`ANIMATION` with a non-null audio URL), whether the video is already playing,
and whether an attempted `play()` would be rejected. -/
structure SyncInput where
  source : StreamSource
  hasAudioRef : Bool
  videoPaused : Bool
  playRejected : Bool

/-- The sync-effect state: how many of each sync listener are attached to the
video element, the audio element's state, and whether a cleanup from the
previous effect run is pending. -/
structure SyncState where
  playCount : Nat
  pauseCount : Nat
  timeCount : Nat
  audioEl : AudioElemState
  hasCleanup : Bool

/-- The cleanup returned by the sync effect's listener-installing branch
(src/App.tsx lines 90-98): remove the play, pause and timeupdate listeners it
added, pause the audio and reset its position to zero. An effect run that took
the early-return branch registered no cleanup. -/
def syncCleanup (s : SyncState) : SyncState :=
  if s.hasCleanup then
    { playCount := s.playCount - 1, pauseCount := s.pauseCount - 1,
      timeCount := s.timeCount - 1, audioEl := { currentTime := 0, paused := true },
      hasCleanup := false }
  else s

/-- The body of the sync effect (src/App.tsx lines 69-100): for a non-animation
source or missing audio element, pause and reset the audio (when the element
exists) and install nothing; otherwise install the three sync listeners,
register the cleanup, and start the audio at once if the video is already
playing (`if (!videoEl.paused) handlePlay()`). -/
def syncEffectBody (i : SyncInput) (s : SyncState) : SyncState :=
  if i.source ≠ .ANIMATION ∨ ¬i.hasAudioRef then
    if i.hasAudioRef then { s with audioEl := { currentTime := 0, paused := true } } else s
  else
    let s2 : SyncState :=
      { s with playCount := s.playCount + 1, pauseCount := s.pauseCount + 1,
               timeCount := s.timeCount + 1, hasCleanup := true }
    if ¬i.videoPaused then { s2 with audioEl := handlePlay i.playRejected s2.audioEl } else s2

/-- One dependency change of the sync effect: React runs the previous render's
cleanup first, then the new effect body. -/
def runSyncEffect (s : SyncState) (i : SyncInput) : SyncState :=
  syncEffectBody i (syncCleanup s)

/-- Before the first effect run: no listeners, audio at rest, no cleanup. -/
def initialSyncState : SyncState :=
  { playCount := 0, pauseCount := 0, timeCount := 0,
    audioEl := { currentTime := 0, paused := true }, hasCleanup := false }

/-- A settled asynchronous result: when (relative to the moment both requests
are issued) the underlying promise settles, and with what. -/
structure Settled (α : Type) where
  time : ℚ
  result : Except String α

/-- `Promise.all` over two already-issued promises: fulfilled with the pair
when the later of the two fulfils; rejected at the moment of the first
rejection, without waiting for the other promise to settle. -/
def promiseAll2 {α β : Type} (x : Settled α) (y : Settled β) : Settled (α × β) :=
  match x.result, y.result with
  | .ok a, .ok b => ⟨max x.time y.time, .ok (a, b)⟩
  | .error e, .ok _ => ⟨x.time, .error e⟩
  | .ok _, .error e => ⟨y.time, .error e⟩
  | .error e1, .error e2 => ⟨min x.time y.time, .error (if x.time ≤ y.time then e1 else e2)⟩

/-- The concurrent core of `handleGenerateAnimation` (src/App.tsx lines
199-219): once the shared base64 image is ready, `speechPromise` (speech
generation chained with `createAudioUrl`) and `videoPromise` are both created
before either is awaited, so their times run from the same origin; the
workflow settles as `await Promise.all([speechPromise, videoPromise])` does. -/
def animationWorkflow {α β : Type} (speech : Settled α) (video : Settled β) :
    Settled (α × β) :=
  promiseAll2 speech video

/-- History-entry types (src/types.ts `HistoryItem.type`). -/
inductive HistoryType where
  | VIDEO
  | AUDIO
  | STREAM
  | ANIMATION
  | OVERLAY
deriving DecidableEq, Repr

/-- One activity-log entry. -/
structure HistoryItem where
  htype : HistoryType
  description : String
deriving DecidableEq, Repr

/-- A generated video asset (src/types.ts `VideoAsset`). -/
structure VideoAsset where
  id : String
  url : String
  prompt : String
deriving DecidableEq, Repr

/-- The slice of App state that source selection touches. -/
structure AppState where
  streamSource : StreamSource
  currentVideoUrl : Option String
  currentAudioUrl : Option String
  history : List HistoryItem
deriving DecidableEq, Repr

/-- `addHistoryItem` (src/App.tsx lines 442-444): append one entry. -/
def addHistoryItem (t : HistoryType) (description : String) (st : AppState) : AppState :=
  { st with history := st.history ++ [{ htype := t, description := description }] }

/-- `handleSelectVideo` (src/App.tsx lines 452-457): bind the chosen library
video, clear the narration audio URL, switch the source to the video library,
and log the action. -/
def handleSelectVideo (video : VideoAsset) (st : AppState) : AppState :=
  addHistoryItem .VIDEO ("Set stream to video: \"" ++ video.prompt ++ "\"")
    { st with currentVideoUrl := some video.url, currentAudioUrl := none,
              streamSource := .VIDEO_LIBRARY }

/-- The grouped and the flattened header are the same bytes. -/
theorem wavHeaderF_eq (sampleRate n : Nat) :
    wavHeader sampleRate n = wavHeaderF sampleRate n := rfl

/-- T-division of the numerator by the denominator is ceiling for negative
rationals and floor otherwise: exactly ECMAScript truncation toward zero. -/
theorem ratTrunc_eq (q : ℚ) : ratTrunc q = if q < 0 then ⌈q⌉ else ⌊q⌋ := by
  unfold ratTrunc
  by_cases h : q < 0
  · rw [if_pos h]
    have hnum : q.num < 0 := Rat.num_neg.mpr h
    have h1 : q.num.tdiv q.den = -((-q.num).tdiv q.den) := by
      rw [Int.neg_tdiv, neg_neg]
    rw [h1, Int.tdiv_eq_ediv (by omega) (Int.natCast_nonneg _)]
    rw [show (-q.num : ℤ) = (-q).num from (Rat.num_neg_eq_neg_num q).symm]
    rw [show ((q.den : ℤ)) = (((-q).den : ℕ) : ℤ) by rw [Rat.den_neg_eq_den]]
    rw [← Rat.floor_def, Int.floor_neg, neg_neg]
  · rw [if_neg h]
    have hnum : 0 ≤ q.num := Rat.num_nonneg.mpr (not_lt.mp h)
    rw [Int.tdiv_eq_ediv hnum (Int.natCast_nonneg _), Rat.floor_def]

/-- Truncation of an integer rational is the integer itself. -/
theorem ratTrunc_intCast (k : ℤ) : ratTrunc (k : ℚ) = k := by
  rw [ratTrunc_eq]
  split
  · exact Int.ceil_intCast k
  · exact Int.floor_intCast k

/-- `setInt16`'s mod-2^16 store is the identity on in-range values. -/
theorem toInt16Wrap_eq_self (v : Int) (h1 : -32768 ≤ v) (h2 : v ≤ 32767) :
    toInt16Wrap v = v := by
  unfold toInt16Wrap
  omega

/-- Any sample an `Int16Array` view yields lies in the signed 16-bit range. -/
theorem int16FromBytesLE_range (lo hi : Nat) (hlo : lo < 256) (hhi : hi < 256) :
    -32768 ≤ int16FromBytesLE lo hi ∧ int16FromBytesLE lo hi ≤ 32767 := by
  unfold int16FromBytesLE
  dsimp only
  split <;> omega

/-- The decode-then-quantize chain on one in-range sample: zero and negative
samples are reproduced exactly, a positive sample `k` is stored as `k - 1`
(the `s * 0x7FFF` scaling undershoots the `/ 32768` decode by `k / 32768`). -/
theorem quantize_decode (k : Int) (h1 : -32768 ≤ k) (h2 : k ≤ 32767) :
    quantizeSample ((k : ℚ) / 32768) = rtSample k := by
  have h32 : (0 : ℚ) < 32768 := by norm_num
  have hkle : (k : ℚ) ≤ 32767 := by exact_mod_cast h2
  have hkge : (-32768 : ℚ) ≤ (k : ℚ) := by exact_mod_cast h1
  have hle1 : (k : ℚ) / 32768 ≤ 1 := by
    rw [div_le_one h32]; linarith
  have hgem1 : (-1 : ℚ) ≤ (k : ℚ) / 32768 := by
    rw [le_div_iff₀ h32]; linarith
  have hclamp : clamp1 ((k : ℚ) / 32768) = (k : ℚ) / 32768 := by
    unfold clamp1; rw [min_eq_right hle1, max_eq_right hgem1]
  unfold quantizeSample
  rw [hclamp]
  by_cases hneg : (k : ℚ) / 32768 < 0
  · have hk0 : k < 0 := by
      by_contra hc
      push_neg at hc
      have : (0 : ℚ) ≤ (k : ℚ) / 32768 :=
        div_nonneg (by exact_mod_cast hc) (le_of_lt h32)
      linarith
    rw [if_pos hneg, div_mul_cancel₀ _ (by norm_num : (32768 : ℚ) ≠ 0)]
    rw [ratTrunc_intCast k, toInt16Wrap_eq_self k h1 h2]
    unfold rtSample
    rw [if_neg (by omega)]
  · push_neg at hneg
    have hk0 : 0 ≤ k := by
      by_contra hc
      push_neg at hc
      have : (k : ℚ) / 32768 < 0 :=
        div_neg_of_neg_of_pos (by exact_mod_cast hc) h32
      linarith
    rw [if_neg (not_lt.mpr hneg)]
    rcases eq_or_lt_of_le hk0 with heq | hpos
    · rw [← heq]
      norm_num
      rw [show ((0 : ℚ)) = ((0 : ℤ) : ℚ) by norm_num, ratTrunc_intCast]
      unfold toInt16Wrap rtSample
      norm_num
    · have hqpos : (0 : ℚ) < (k : ℚ) := by exact_mod_cast hpos
      have hargnn : (0 : ℚ) ≤ (k : ℚ) / 32768 * 32767 := by positivity
      rw [ratTrunc_eq, if_neg (not_lt.mpr hargnn)]
      have hfloor : ⌊(k : ℚ) / 32768 * 32767⌋ = k - 1 := by
        rw [Int.floor_eq_iff]
        constructor
        · push_cast
          rw [div_mul_eq_mul_div, le_div_iff₀ h32]
          linarith
        · push_cast
          rw [div_mul_eq_mul_div, div_lt_iff₀ h32]
          linarith
      rw [hfloor, toInt16Wrap_eq_self _ (by omega) (by omega)]
      unfold rtSample
      rw [if_pos hpos]

/-- Unfolding `decodeSamples` over one LE sample pair. -/
theorem decodeSamples_cons (lo hi : Nat) (rest : List Nat) :
    decodeSamples (lo :: hi :: rest)
      = ((int16FromBytesLE lo hi : ℚ) / 32768) :: decodeSamples rest := rfl

/-- The `Int16Array` view holds one sample per byte pair. -/
theorem bytesToInt16LE_length : ∀ data : List Nat,
    (bytesToInt16LE data).length = data.length / 2
  | [] => rfl
  | [_] => by simp [bytesToInt16LE]
  | _ :: _ :: rest => by
      show (bytesToInt16LE rest).length + 1 = _
      rw [bytesToInt16LE_length rest]
      simp only [List.length_cons]
      omega

/-- The amended data chunk is as long as the (even-length) input. -/
theorem roundTripBytes_length : ∀ data : List Nat, data.length % 2 = 0 →
    (roundTripBytes data).length = data.length
  | [] => fun _ => rfl
  | [_] => fun h => by simp at h
  | lo :: hi :: rest => fun h => by
      have h2 : rest.length % 2 = 0 := by
        simp only [List.length_cons] at h
        omega
      show (int16ToBytesLE (rtSample (int16FromBytesLE lo hi)) ++ roundTripBytes rest).length = _
      rw [List.length_append, roundTripBytes_length rest h2]
      simp only [int16ToBytesLE, List.length_cons, List.length_nil]
      omega

/-- The data chunk the pipeline writes equals `roundTripBytes` of the input:
decode, clamp, rescale and truncate, sample by sample. -/
theorem payload_eq : ∀ data : List Nat, (∀ b ∈ data, b < 256) →
    ((decodeSamples data).map fun x => int16ToBytesLE (quantizeSample x)).flatten
      = roundTripBytes data
  | [] => fun _ => rfl
  | [_] => fun _ => rfl
  | lo :: hi :: rest => fun h => by
      have hlo : lo < 256 := h lo (by simp)
      have hhi : hi < 256 := h hi (by simp)
      have hr := int16FromBytesLE_range lo hi hlo hhi
      have ih := payload_eq rest fun b hb => h b (by simp [hb])
      rw [decodeSamples_cons, List.map_cons, List.flatten_cons,
        quantize_decode _ hr.1 hr.2, ih]
      rfl

/-- On valid input (even and non-empty) the pipeline succeeds and produces the
header for `length / 2` samples followed by the amended data chunk. -/
theorem createAudioUrl_ok (data : List Nat) (hb : ∀ b ∈ data, b < 256)
    (heven : data.length % 2 = 0) (hne : data.length ≠ 0) :
    createAudioUrl data = .ok (wavHeader 24000 (data.length / 2) ++ roundTripBytes data) := by
  unfold createAudioUrl decodeAudioData
  rw [if_neg (by omega), if_neg (by omega)]
  show Except.ok (wavFromChannels 24000 (decodeSamples data)) = _
  unfold wavFromChannels
  rw [payload_eq data hb]
  have hlen : (decodeSamples data).length = data.length / 2 := by
    unfold decodeSamples
    rw [List.length_map, bytesToInt16LE_length]
  rw [hlen]

/-- On valid input the pipeline never reports an error. -/
theorem createAudioUrl_ok_exists (data : List Nat)
    (heven : data.length % 2 = 0) (hne : data.length / 2 ≠ 0) :
    ∃ w, createAudioUrl data = .ok w := by
  unfold createAudioUrl decodeAudioData
  rw [if_neg (by omega), if_neg hne]
  exact ⟨_, rfl⟩

/-- C1: the claim asserts a byte-exact round trip, and in particular that for
input samples [0, 16384, -16384, 32767] the output bytes 46-47 are 0x00 0x40
and bytes 50-51 are 0xFF 0x7F. In fact the decode divides by 32768 while the
encode scales non-negative samples by 32767 and truncates, so the sample 16384
is stored as 16383 (bytes 0xFF 0x3F) and 32767 as 32766 (bytes 0xFE 0x7F):
the claimed bytes 46-47 = 0x00 0x40 are refuted at the claim's own input. -/
theorem C1_counterexample :
    ∃ w, createAudioUrl [0, 0, 0, 64, 0, 192, 255, 127] = .ok w ∧
      w.length = 52 ∧ getByte w 46 = 255 ∧ getByte w 47 = 63 ∧
      getByte w 50 = 254 ∧ getByte w 51 = 127 ∧
      ¬(getByte w 46 = 0 ∧ getByte w 47 = 64) := by
  refine ⟨_, createAudioUrl_ok [0, 0, 0, 64, 0, 192, 255, 127]
    (by decide) (by decide) (by decide), ?_, ?_, ?_, ?_, ?_, ?_⟩ <;> decide

/-- C1 (amended): for every valid even-length PCM input of length 2n the
output WAV declares data-chunk size 2n and RIFF chunk size 36 + 2n and has
total length 44 + 2n; the data chunk reproduces zero and negative samples
byte-exactly while each positive sample k is stored as k - 1; for the
4-sample input [0, 16384, -16384, 32767] at rate 24000 the output is 52
bytes with bytes 44-45 = 0x00 0x00, 46-47 = 0xFF 0x3F, 48-49 = 0x00 0xC0,
50-51 = 0xFE 0x7F. -/
theorem C1_round_trip (data : List Nat) (hb : ∀ b ∈ data, b < 256)
    (heven : data.length % 2 = 0) (hne : data.length ≠ 0)
    (hsize : 36 + data.length < 4294967296) :
    ∃ w, createAudioUrl data = .ok w ∧
      w.length = 44 + data.length ∧
      readU32LE w 40 = data.length ∧
      readU32LE w 4 = 36 + data.length ∧
      w.drop 44 = roundTripBytes data := by
  refine ⟨_, createAudioUrl_ok data hb heven hne, ?_, ?_, ?_, ?_⟩ <;>
    rw [wavHeaderF_eq]
  · have h44 : (wavHeaderF 24000 (data.length / 2)).length = 44 := rfl
    rw [List.length_append, h44, roundTripBytes_length data heven]
  · have hr : readU32LE (wavHeaderF 24000 (data.length / 2) ++ roundTripBytes data) 40
        = data.length / 2 * 2 % 256 + 256 * (data.length / 2 * 2 / 256 % 256)
          + 65536 * (data.length / 2 * 2 / 65536 % 256)
          + 16777216 * (data.length / 2 * 2 / 16777216 % 256) := rfl
    rw [hr]
    omega
  · have hr : readU32LE (wavHeaderF 24000 (data.length / 2) ++ roundTripBytes data) 4
        = (36 + data.length / 2 * 2) % 256 + 256 * ((36 + data.length / 2 * 2) / 256 % 256)
          + 65536 * ((36 + data.length / 2 * 2) / 65536 % 256)
          + 16777216 * ((36 + data.length / 2 * 2) / 16777216 % 256) := rfl
    rw [hr]
    omega
  · rfl

/-- Witness: the amended round trip at the spec's end-to-end input. -/
theorem C1_round_trip_witness :
    ∃ w, createAudioUrl [0, 0, 0, 64, 0, 192, 255, 127] = .ok w ∧
      w.length = 52 ∧ readU32LE w 40 = 8 ∧ readU32LE w 4 = 44 ∧
      w.drop 44 = [0, 0, 255, 63, 0, 192, 254, 127] := by
  obtain ⟨w, h1, h2, h3, h4, h5⟩ :=
    C1_round_trip [0, 0, 0, 64, 0, 192, 255, 127]
      (by decide) (by decide) (by decide) (by decide)
  refine ⟨w, h1, ?_, ?_, ?_, ?_⟩
  · rw [h2]
    decide
  · rw [h3]
    decide
  · rw [h4]
    decide
  · rw [h5]
    decide

/-- C3: the pipeline fails (with the `MalformedAudio` condition, the only
error it has) exactly when the sample count `length / 2` is zero or the byte
length is odd, and succeeds on every other input. -/
theorem C3_malformed_iff (data : List Nat) :
    ((createAudioUrl data = .error .malformedAudio)
        ↔ (data.length / 2 = 0 ∨ data.length % 2 ≠ 0)) ∧
    (¬(data.length / 2 = 0 ∨ data.length % 2 ≠ 0)
        → ∃ w, createAudioUrl data = .ok w) := by
  unfold createAudioUrl decodeAudioData
  by_cases h1 : data.length % 2 ≠ 0
  · rw [if_pos h1]
    exact ⟨⟨fun _ => Or.inr h1, fun _ => rfl⟩, fun hc => absurd (Or.inr h1) hc⟩
  · rw [if_neg h1]
    by_cases h2 : data.length / 2 = 0
    · rw [if_pos h2]
      exact ⟨⟨fun _ => Or.inl h2, fun _ => rfl⟩, fun hc => absurd (Or.inl h2) hc⟩
    · rw [if_neg h2]
      refine ⟨⟨?_, ?_⟩, fun _ => ⟨_, rfl⟩⟩
      · intro he
        exact absurd he (by simp [Except.map])
      · rintro (h | h)
        · exact absurd h h2
        · exact absurd h h1

/-- C4: for every sample rate and channel list, the 44-byte header has exactly
the specified layout: RIFF tag, chunk size 36 + 2n, WAVE, fmt, subchunk size
16, format 1 at offsets 20-21, channels 1 at 22-23, the sample rate, byte rate
sampleRate * 2, block align 2, bits per sample 16 at 34-35, data tag, and data
size 2n; the fixed fields hold regardless of input. -/
theorem C4_header_layout (sampleRate : Nat) (channels : List ℚ)
    (hsr : sampleRate < 4294967296) (hbr : sampleRate * 2 < 4294967296)
    (hn : 36 + channels.length * 2 < 4294967296) :
    (wavFromChannels sampleRate channels).take 4 = [82, 73, 70, 70] ∧
    readU32LE (wavFromChannels sampleRate channels) 4 = 36 + channels.length * 2 ∧
    ((wavFromChannels sampleRate channels).drop 8).take 4 = [87, 65, 86, 69] ∧
    ((wavFromChannels sampleRate channels).drop 12).take 4 = [102, 109, 116, 32] ∧
    readU32LE (wavFromChannels sampleRate channels) 16 = 16 ∧
    readU16LE (wavFromChannels sampleRate channels) 20 = 1 ∧
    readU16LE (wavFromChannels sampleRate channels) 22 = 1 ∧
    readU32LE (wavFromChannels sampleRate channels) 24 = sampleRate ∧
    readU32LE (wavFromChannels sampleRate channels) 28 = sampleRate * 2 ∧
    readU16LE (wavFromChannels sampleRate channels) 32 = 2 ∧
    readU16LE (wavFromChannels sampleRate channels) 34 = 16 ∧
    ((wavFromChannels sampleRate channels).drop 36).take 4 = [100, 97, 116, 97] ∧
    readU32LE (wavFromChannels sampleRate channels) 40 = channels.length * 2 := by
  have hw : wavFromChannels sampleRate channels
      = wavHeaderF sampleRate channels.length ++
        (channels.map fun x => int16ToBytesLE (quantizeSample x)).flatten := by
    unfold wavFromChannels
    rw [wavHeaderF_eq]
  rw [hw]
  refine ⟨rfl, ?_, rfl, rfl, rfl, rfl, rfl, ?_, ?_, rfl, rfl, rfl, ?_⟩
  · have hr : readU32LE (wavHeaderF sampleRate channels.length ++
          (channels.map fun x => int16ToBytesLE (quantizeSample x)).flatten) 4
        = (36 + channels.length * 2) % 256
          + 256 * ((36 + channels.length * 2) / 256 % 256)
          + 65536 * ((36 + channels.length * 2) / 65536 % 256)
          + 16777216 * ((36 + channels.length * 2) / 16777216 % 256) := rfl
    rw [hr]
    omega
  · have hr : readU32LE (wavHeaderF sampleRate channels.length ++
          (channels.map fun x => int16ToBytesLE (quantizeSample x)).flatten) 24
        = sampleRate % 256 + 256 * (sampleRate / 256 % 256)
          + 65536 * (sampleRate / 65536 % 256)
          + 16777216 * (sampleRate / 16777216 % 256) := rfl
    rw [hr]
    omega
  · have hr : readU32LE (wavHeaderF sampleRate channels.length ++
          (channels.map fun x => int16ToBytesLE (quantizeSample x)).flatten) 28
        = sampleRate * 2 % 256 + 256 * (sampleRate * 2 / 256 % 256)
          + 65536 * (sampleRate * 2 / 65536 % 256)
          + 16777216 * (sampleRate * 2 / 16777216 % 256) := rfl
    rw [hr]
    omega
  · have hr : readU32LE (wavHeaderF sampleRate channels.length ++
          (channels.map fun x => int16ToBytesLE (quantizeSample x)).flatten) 40
        = channels.length * 2 % 256 + 256 * (channels.length * 2 / 256 % 256)
          + 65536 * (channels.length * 2 / 65536 % 256)
          + 16777216 * (channels.length * 2 / 16777216 % 256) := rfl
    rw [hr]
    omega

/-- Witness: the header layout at rate 24000 with one channel sample. -/
theorem C4_header_layout_witness :
    readU16LE (wavFromChannels 24000 [0]) 20 = 1 ∧
    readU16LE (wavFromChannels 24000 [0]) 22 = 1 ∧
    readU16LE (wavFromChannels 24000 [0]) 34 = 16 ∧
    readU32LE (wavFromChannels 24000 [0]) 24 = 24000 ∧
    readU32LE (wavFromChannels 24000 [0]) 4 = 38 := by
  obtain ⟨h1, h2, h3, h4, h5, h6, h7, h8, h9, h10, h11, h12, h13⟩ :=
    C4_header_layout 24000 [0] (by norm_num) (by norm_num) (by norm_num)
  refine ⟨h6, h7, h11, h8, ?_⟩
  rw [h2]
  decide

/-- C5: every intermediate sample is clamped to [-1, 1] and then scaled
asymmetrically (by 32768 when negative, 32767 otherwise); the 16-bit store's
mod-2^16 reduction is the identity (no overflow or wraparound), the stored
value always lies in [-32768, 32767], any sample at or above 1 encodes to
exactly 32767, and any sample at or below -1 encodes to exactly -32768. -/
theorem C5_quantize_clamping (x : ℚ) :
    quantizeSample x
        = ratTrunc (if clamp1 x < 0 then clamp1 x * 32768 else clamp1 x * 32767) ∧
    -32768 ≤ quantizeSample x ∧ quantizeSample x ≤ 32767 ∧
    (1 ≤ x → quantizeSample x = 32767) ∧
    (x ≤ -1 → quantizeSample x = -32768) := by
  have hcl : (-1 : ℚ) ≤ clamp1 x := le_max_left _ _
  have hcu : clamp1 x ≤ 1 := max_le (by norm_num) (min_le_left _ _)
  have hrange :
      -32768 ≤ ratTrunc (if clamp1 x < 0 then clamp1 x * 32768 else clamp1 x * 32767) ∧
      ratTrunc (if clamp1 x < 0 then clamp1 x * 32768 else clamp1 x * 32767) ≤ 32767 := by
    by_cases hneg : clamp1 x < 0
    · rw [if_pos hneg, ratTrunc_eq,
        if_pos (mul_neg_of_neg_of_pos hneg (by norm_num))]
      constructor
      · have h1 : ((-32768 : ℤ) : ℚ) ≤ clamp1 x * 32768 := by
          push_cast
          nlinarith
        calc (-32768 : ℤ) = ⌈((-32768 : ℤ) : ℚ)⌉ := (Int.ceil_intCast _).symm
          _ ≤ ⌈clamp1 x * 32768⌉ := Int.ceil_le_ceil h1
      · have h2 : clamp1 x * 32768 ≤ ((0 : ℤ) : ℚ) := by
          push_cast
          nlinarith
        have h3 := Int.ceil_le.mpr h2
        omega
    · rw [if_neg hneg, ratTrunc_eq]
      push_neg at hneg
      rw [if_neg (not_lt.mpr (mul_nonneg hneg (by norm_num)))]
      constructor
      · have h1 : ((0 : ℤ) : ℚ) ≤ clamp1 x * 32767 := by
          push_cast
          nlinarith
        have h3 := Int.le_floor.mpr h1
        omega
      · have h2 : clamp1 x * 32767 ≤ ((32767 : ℤ) : ℚ) := by
          push_cast
          nlinarith
        calc ⌊clamp1 x * 32767⌋ ≤ ⌊((32767 : ℤ) : ℚ)⌋ := Int.floor_le_floor h2
          _ = 32767 := Int.floor_intCast _
  have hwrap : quantizeSample x
      = ratTrunc (if clamp1 x < 0 then clamp1 x * 32768 else clamp1 x * 32767) := by
    unfold quantizeSample
    exact toInt16Wrap_eq_self _ hrange.1 hrange.2
  refine ⟨hwrap, by rw [hwrap]; exact hrange.1, by rw [hwrap]; exact hrange.2, ?_, ?_⟩
  · intro hx
    have hc1 : clamp1 x = 1 := by
      unfold clamp1
      rw [min_eq_left hx, max_eq_right (by norm_num : (-1 : ℚ) ≤ 1)]
    rw [hwrap, hc1, if_neg (by norm_num), one_mul,
      show (32767 : ℚ) = ((32767 : ℤ) : ℚ) by norm_num, ratTrunc_intCast]
  · intro hx
    have hc1 : clamp1 x = -1 := by
      unfold clamp1
      rw [min_eq_right (le_trans hx (by norm_num)), max_eq_left (by linarith)]
    rw [hwrap, hc1, if_pos (by norm_num), neg_one_mul,
      show (-(32768 : ℚ)) = ((-32768 : ℤ) : ℚ) by norm_num, ratTrunc_intCast]

/-- Witness: an out-of-range positive sample encodes to 32767 and an
out-of-range negative sample to -32768. -/
theorem C5_quantize_clamping_witness :
    quantizeSample (3 / 2) = 32767 ∧ quantizeSample (-3 / 2) = -32768 :=
  ⟨(C5_quantize_clamping (3 / 2)).2.2.2.1 (by norm_num),
   (C5_quantize_clamping (-3 / 2)).2.2.2.2 (by norm_num)⟩

/-- C2: the claim says a static-media (video-library) binding leaves the video
element unmuted and a synced-animation binding mutes its video element. The
code sets `muted = (source !== ANIMATION)`, so at a concrete state a
VIDEO_LIBRARY binding is muted and an ANIMATION binding is unmuted — both
halves of the claim are refuted. -/
theorem C2_counterexample :
    (bindVideoEffect .VIDEO_LIBRARY none (some "u") false
        { srcObject := none, src := "", muted := false, playing := false }).muted = true ∧
    (bindVideoEffect .ANIMATION none (some "u") false
        { srcObject := none, src := "", muted := false, playing := false }).muted = false := by
  constructor <;> rfl

/-- C2 (amended): a webcam binding mutes the video element (with or without a
live stream), a static-media (video-library) binding also mutes it, and a
synced-animation binding leaves its video element unmuted; narration audio is
carried by the separate audio element in either case. -/
theorem C2_muting (stream : Option Nat) (url : Option String) (rej : Bool)
    (v : VideoElemState) :
    (bindVideoEffect .WEBCAM stream url rej v).muted = true ∧
    (bindVideoEffect .VIDEO_LIBRARY stream url rej v).muted = true ∧
    (bindVideoEffect .ANIMATION stream url rej v).muted = false := by
  refine ⟨?_, ?_, ?_⟩ <;> rcases stream with _ | s <;> rcases url with _ | u <;>
    rcases rej with _ | _ <;> rfl

/-- C9: a rejected play call is absorbed by the catch handler: the element
state it would have changed is untouched, and the binding effect installs the
same source bindings (srcObject, src, muted) whether or not play is rejected —
the rejection never escapes and never perturbs bound state. -/
theorem C9_play_rejection (source : StreamSource) (stream : Option Nat)
    (url : Option String) (v : VideoElemState) (rej : Bool) (a : AudioElemState) :
    playVideoCaught true v = v ∧
    (playVideo rej v = .error "play rejected" → playVideoCaught rej v = v) ∧
    handlePlay true a = a ∧
    (bindVideoEffect source stream url rej v).srcObject
        = (bindVideoEffect source stream url false v).srcObject ∧
    (bindVideoEffect source stream url rej v).src
        = (bindVideoEffect source stream url false v).src ∧
    (bindVideoEffect source stream url rej v).muted
        = (bindVideoEffect source stream url false v).muted := by
  refine ⟨rfl, ?_, rfl, ?_, ?_, ?_⟩
  · intro h
    unfold playVideoCaught
    rw [h]
  all_goals
    rcases source <;> rcases rej with _ | _ <;> rcases stream with _ | s <;>
      rcases url with _ | u <;> rfl

/-- C6: on a video position update the audio position is forced to the video
position exactly when the divergence exceeds 0.5 s and is left unchanged when
it is at most 0.5 s; a video play event starts audio playback (when not
rejected) and a video pause event pauses it. -/
theorem C6_sync_loop (a : AudioElemState) (videoTime : ℚ) :
    (|a.currentTime - videoTime| > 1 / 2 →
        (handleSeek videoTime a).currentTime = videoTime) ∧
    (|a.currentTime - videoTime| ≤ 1 / 2 → handleSeek videoTime a = a) ∧
    (handlePlay false a).paused = false ∧
    (handlePause a).paused = true := by
  refine ⟨?_, ?_, rfl, rfl⟩
  · intro h
    unfold handleSeek
    rw [if_pos h]
  · intro h
    unfold handleSeek
    rw [if_neg (not_lt.mpr h)]

/-- Witness: at divergence 0.6 s the audio position is corrected to the video
position; at divergence 0.4 s it is left unchanged. -/
theorem C6_sync_loop_witness :
    (handleSeek (3 / 5) { currentTime := 0, paused := true }).currentTime = 3 / 5 ∧
    handleSeek (2 / 5) { currentTime := 0, paused := true }
      = { currentTime := 0, paused := true } := by
  constructor
  · refine (C6_sync_loop { currentTime := 0, paused := true } (3 / 5)).1 ?_
    rw [zero_sub, abs_neg, abs_of_nonneg (by norm_num)]
    norm_num
  · refine (C6_sync_loop { currentTime := 0, paused := true } (2 / 5)).2.1 ?_
    rw [zero_sub, abs_neg, abs_of_nonneg (by norm_num)]
    norm_num

/-- One sync-effect transition preserves the listener bookkeeping: each
listener count equals 1 when a cleanup is pending and 0 otherwise. -/
theorem runSyncEffect_inv (s : SyncState) (i : SyncInput)
    (h1 : s.playCount = if s.hasCleanup then 1 else 0)
    (h2 : s.pauseCount = if s.hasCleanup then 1 else 0)
    (h3 : s.timeCount = if s.hasCleanup then 1 else 0) :
    ((runSyncEffect s i).playCount
        = if (runSyncEffect s i).hasCleanup then 1 else 0) ∧
    ((runSyncEffect s i).pauseCount
        = if (runSyncEffect s i).hasCleanup then 1 else 0) ∧
    ((runSyncEffect s i).timeCount
        = if (runSyncEffect s i).hasCleanup then 1 else 0) := by
  unfold runSyncEffect syncCleanup syncEffectBody
  by_cases hc : s.hasCleanup = true <;>
    simp only [hc, if_true, if_false, Bool.false_eq_true] <;>
    split_ifs <;> simp_all

/-- The listener bookkeeping holds after any fold of sync-effect runs. -/
theorem syncFold_inv : ∀ (l : List SyncInput) (s : SyncState),
    s.playCount = (if s.hasCleanup then 1 else 0) →
    s.pauseCount = (if s.hasCleanup then 1 else 0) →
    s.timeCount = (if s.hasCleanup then 1 else 0) →
    ((l.foldl runSyncEffect s).playCount
        = if (l.foldl runSyncEffect s).hasCleanup then 1 else 0) ∧
    ((l.foldl runSyncEffect s).pauseCount
        = if (l.foldl runSyncEffect s).hasCleanup then 1 else 0) ∧
    ((l.foldl runSyncEffect s).timeCount
        = if (l.foldl runSyncEffect s).hasCleanup then 1 else 0)
  | [], _ => fun h1 h2 h3 => ⟨h1, h2, h3⟩
  | i :: rest, s => fun h1 h2 h3 => by
      obtain ⟨g1, g2, g3⟩ := runSyncEffect_inv s i h1 h2 h3
      exact syncFold_inv rest (runSyncEffect s i) g1 g2 g3

/-- C7: the cleanup of the previous sync binding removes its listener of each
kind and pauses the secondary audio with its position reset to zero, and
because every transition runs that cleanup before installing the new binding,
after any sequence of source switches each playback handler is attached at
most once. -/
theorem C7_teardown_before_install (l : List SyncInput) :
    (l.foldl runSyncEffect initialSyncState).playCount ≤ 1 ∧
    (l.foldl runSyncEffect initialSyncState).pauseCount ≤ 1 ∧
    (l.foldl runSyncEffect initialSyncState).timeCount ≤ 1 ∧
    (∀ s : SyncState, s.hasCleanup = true →
      (syncCleanup s).playCount = s.playCount - 1 ∧
      (syncCleanup s).pauseCount = s.pauseCount - 1 ∧
      (syncCleanup s).timeCount = s.timeCount - 1 ∧
      (syncCleanup s).audioEl.paused = true ∧
      (syncCleanup s).audioEl.currentTime = 0) := by
  obtain ⟨g1, g2, g3⟩ := syncFold_inv l initialSyncState rfl rfl rfl
  refine ⟨?_, ?_, ?_, ?_⟩
  · rw [g1]; split <;> omega
  · rw [g2]; split <;> omega
  · rw [g3]; split <;> omega
  · intro s hs
    unfold syncCleanup
    rw [if_pos hs]
    exact ⟨rfl, rfl, rfl, rfl, rfl⟩

/-- C8: the animation workflow (both generation promises created once the
shared image is ready, then awaited with `Promise.all`) succeeds exactly when
both requests succeed, in which case its latency is the maximum — not the sum
— of the two; a failure of either request settles the workflow at that
request's own settle time, without waiting for the other request. -/
theorem C8_concurrent_generation (α β : Type) (speech : Settled α) (video : Settled β) :
    ((∃ p, (animationWorkflow speech video).result = .ok p) ↔
        (∃ a, speech.result = .ok a) ∧ (∃ b, video.result = .ok b)) ∧
    (∀ a b, speech.result = .ok a → video.result = .ok b →
        animationWorkflow speech video = ⟨max speech.time video.time, .ok (a, b)⟩) ∧
    (∀ e b, speech.result = .error e → video.result = .ok b →
        animationWorkflow speech video = ⟨speech.time, .error e⟩) ∧
    (∀ a e, speech.result = .ok a → video.result = .error e →
        animationWorkflow speech video = ⟨video.time, .error e⟩) ∧
    (∀ e1 e2, speech.result = .error e1 → video.result = .error e2 →
        (animationWorkflow speech video).time = min speech.time video.time) := by
  rcases speech with ⟨ts, rs⟩
  rcases video with ⟨tv, rv⟩
  rcases rs with e | a <;> rcases rv with e2 | b <;>
    simp [animationWorkflow, promiseAll2]

/-- Witness: a 50 ms speech call and a 5000 ms video call yield a combined
latency of 5000 ms, and a failed speech call settles the workflow at 50 ms
even though the video call settles only at 5000 ms. -/
theorem C8_concurrent_generation_witness :
    animationWorkflow (⟨50, .ok 0⟩ : Settled Nat) (⟨5000, .ok 1⟩ : Settled Nat)
      = ⟨5000, .ok (0, 1)⟩ ∧
    animationWorkflow (⟨50, .error "generation failed"⟩ : Settled Nat)
        (⟨5000, .ok 1⟩ : Settled Nat)
      = ⟨50, .error "generation failed"⟩ := by
  constructor
  · have h := (C8_concurrent_generation Nat Nat ⟨50, .ok 0⟩ ⟨5000, .ok 1⟩).2.1 0 1 rfl rfl
    rw [h, max_eq_right (by norm_num : (50 : ℚ) ≤ 5000)]
  · exact (C8_concurrent_generation Nat Nat ⟨50, .error "generation failed"⟩
      ⟨5000, .ok 1⟩).2.2.1 "generation failed" 1 rfl rfl

/-- C10: selecting a static video from the library always clears the narration
audio handle (so no previous animation's audio persists), binds the chosen
video URL, switches the source to the video library, and appends the log
entry. -/
theorem C10_select_video_clears_audio (video : VideoAsset) (st : AppState) :
    (handleSelectVideo video st).currentAudioUrl = none ∧
    (handleSelectVideo video st).currentVideoUrl = some video.url ∧
    (handleSelectVideo video st).streamSource = .VIDEO_LIBRARY ∧
    (handleSelectVideo video st).history
      = st.history
          ++ [⟨.VIDEO, "Set stream to video: \"" ++ video.prompt ++ "\""⟩] :=
  ⟨rfl, rfl, rfl, rfl⟩
